import Mathlib

/-!
# Verification of the lsgres GRES reporting tool (src/main.rs)

Shallow embedding of the core logic of `lsgres`: the GPU allocation
extractor (`parse_gpu_allocation`, `count_gpu_indices`), the preemption
correlator (`process_preempted_jobs`), the GRES descriptor parser
(`GresStatus.from_str`, built on the regex `(\w+:\w+):(\d+)`), and the
node view builder (`TableNode.from_node`).

Modelling conventions:
- Rust strings are modelled as `List Char` in the core functions, with
  `String` wrappers at the API boundary.  String positions (Rust byte
  offsets from `str::find`) are modelled as character indices; the two
  coincide on ASCII input, which is the domain of all scheduler-emitted
  strings handled here.
- `u32`/`usize` are modelled as `Nat`; `str::parse::<uN>` is modelled by
  `parseUIntCore` which fails exactly when the text is not an optionally
  `+`-signed nonempty digit run or the value exceeds the type's maximum.
- Unchecked `usize` subtraction (`a - b`) is modelled by `checkedSub`,
  which returns an arithmetic-fault error when `b > a`, matching the
  debug-build panic semantics of the source (release builds wrap, which
  is equally a fault for this computation).
- The `u32` arithmetic of `count_gpu_indices` (`count += end - start + 1`)
  is modelled with wrap-around modulo `2 ^ 32` (`wrapU32`), the
  release-build semantics; debug builds panic at exactly the overflow
  points where `wrapU32` truncates, and the theorems about the count
  carry a below-`2 ^ 32` bound under which wrapping, panicking and ideal
  arithmetic all agree.
- ANSI colouring from the `colored` crate is modelled as metadata on a
  `ColoredString`; rendering takes the plain text (the output when the
  destination is not a tty), so glyph strings are counted in visible
  characters.
-/

deriving instance DecidableEq for Except

/-- ASCII decimal value of a digit list, most significant first. -/
def digitsToNat (cs : List Char) : Nat :=
  cs.foldl (fun a c => a * 10 + (c.toNat - 48)) 0

/-- Model of Rust `str::parse::<uN>` for an unsigned type with values
`< bound`: an optional leading `+`, then a nonempty run of ASCII digits,
whose value must fit. -/
def parseUIntCore (bound : Nat) (cs : List Char) : Option Nat :=
  let ds := if cs.head? = some '+' then cs.tail else cs
  if ds.isEmpty then none
  else if ds.all Char.isDigit then
    if digitsToNat ds < bound then some (digitsToNat ds) else none
  else none

/-- `str::parse::<u32>`. -/
def parseU32 (cs : List Char) : Option Nat := parseUIntCore (2 ^ 32) cs

/-- `str::parse::<usize>` (64-bit target). -/
def parseUsize (cs : List Char) : Option Nat := parseUIntCore (2 ^ 64) cs

/-- Model of Rust `str::split(sep)`: splitting an empty string yields one
empty part, and every separator occurrence opens a new part. -/
def splitOnChar (sep : Char) : List Char → List (List Char)
  | [] => [[]]
  | c :: cs =>
    let r := splitOnChar sep cs
    if c = sep then [] :: r
    else
      match r with
      | [] => [[c]]
      | h :: t => (c :: h) :: t

/-- Index of the first occurrence of `pat` as a contiguous substring,
modelling Rust `str::find(pat)` (in characters; bytes on ASCII input). -/
def findSubstrIdx (pat : List Char) : List Char → Option Nat
  | [] => if pat.isEmpty then some 0 else none
  | c :: cs =>
    if pat.isPrefixOf (c :: cs) then some 0
    else (findSubstrIdx pat cs).map (· + 1)

/-- `u32` wrap-around: the value of an overflowing `u32` expression in a
release build (a debug build panics at the same points). -/
def wrapU32 (n : Nat) : Nat := n % 2 ^ 32

/-- Per-entry summand of the loop in `count_gpu_indices`
(src/main.rs:73-87): an entry containing a dash is treated as a range
split at the first dash, both endpoints parsed with `unwrap_or(0)`, and
the `u32` expression `end - start + 1` wraps when `end - start + 1`
reaches `2 ^ 32`; an entry without a dash counts 1 iff it parses as a
`u32`. -/
def countIdxEntry (part : List Char) : Nat :=
  let before := part.takeWhile (fun c => c != '-')
  match part.dropWhile (fun c => c != '-') with
  | [] =>
    if (parseU32 part).isSome then 1 else 0
  | _ :: after =>
    let s := (parseU32 before).getD 0
    let e := (parseU32 after).getD 0
    if s ≤ e then wrapU32 (e - s + 1) else 0

/-- `count_gpu_indices` (src/main.rs:71-89) on the character list: the
`u32` accumulator `count` starts at 0 and each `+=` wraps modulo
`2 ^ 32`. -/
def count_gpu_indices_core (idx_spec : List Char) : Nat :=
  (splitOnChar ',' idx_spec).foldl (fun count part => wrapU32 (count + countIdxEntry part)) 0

/-- `count_gpu_indices` at the `String` boundary. -/
def count_gpu_indices (idx_spec : String) : Nat :=
  count_gpu_indices_core idx_spec.toList

structure GpuAllocation where
  node : String
  gpus : Nat
  deriving DecidableEq, Repr

/-- The pattern `"(IDX:"` searched for at src/main.rs:41. -/
def idxPat : List Char := ['(', 'I', 'D', 'X', ':']

/-- `parse_gpu_allocation` (src/main.rs:30-68): reject unless the string
starts with `gpu` and has at least three `:`-separated parts; prefer the
`(IDX:...)` index-list count when positive; otherwise fall back to the
digit prefix of the third part, requiring a positive value. -/
def parse_gpu_allocation (gres_str node : String) : Option GpuAllocation :=
  let cs := gres_str.toList
  if ¬ (['g', 'p', 'u'].isPrefixOf cs) then none
  else
    let parts := splitOnChar ':' cs
    if parts.length < 3 then none
    else
      let fallback : Option GpuAllocation :=
        let count_str := (parts.getD 2 []).takeWhile Char.isDigit
        match parseU32 count_str with
        | some gpu_count => if 0 < gpu_count then some ⟨node, gpu_count⟩ else none
        | none => none
      match findSubstrIdx idxPat cs with
      | some idx_start =>
        match (cs.drop idx_start).findIdx? (fun c => c == ')') with
        | some idx_end =>
          let idx_spec := ((cs.drop idx_start).take idx_end).drop 5
          let gpu_count := count_gpu_indices_core idx_spec
          if 0 < gpu_count then some ⟨node, gpu_count⟩ else fallback
        | none => fallback
      | none => fallback

example : parse_gpu_allocation "gpu:a40:1(IDX:0)" "gpu-sm01-13" =
    some ⟨"gpu-sm01-13", 1⟩ := by decide

example : parse_gpu_allocation "gpu:a40:16(IDX:0-15)" "gpu-sm01-14" =
    some ⟨"gpu-sm01-14", 16⟩ := by decide

example : parse_gpu_allocation "cpu:2" "cpu-node-1" = none := by decide

example : count_gpu_indices "0,2-7" = 7 := by decide

example : count_gpu_indices "0-4294967295" = 0 := by decide

example : count_gpu_indices "0-4000000000,0-4000000000" = 3705032706 := by decide

theorem takeWhile_append_run (p : Char → Bool) :
    ∀ (l r : List Char), (∀ c ∈ l, p c = true) →
      (∀ c, r.head? = some c → p c = false) → (l ++ r).takeWhile p = l := by
  intro l
  induction l with
  | nil =>
    intro r _ h2
    cases r with
    | nil => rfl
    | cons c t => simp [List.takeWhile_cons, h2 c rfl]
  | cons c l ih =>
    intro r h1 h2
    have hc : p c = true := h1 c (List.mem_cons_self c l)
    simp only [List.cons_append, List.takeWhile_cons, hc, if_true]
    exact congrArg (c :: ·) (ih r (fun x hx => h1 x (List.mem_cons_of_mem c hx)) h2)

theorem dropWhile_append_run (p : Char → Bool) :
    ∀ (l r : List Char), (∀ c ∈ l, p c = true) →
      (∀ c, r.head? = some c → p c = false) → (l ++ r).dropWhile p = r := by
  intro l
  induction l with
  | nil =>
    intro r _ h2
    cases r with
    | nil => rfl
    | cons c t => simp [List.dropWhile, h2 c rfl]
  | cons c l ih =>
    intro r h1 h2
    have hc : p c = true := h1 c (List.mem_cons_self c l)
    simp only [List.cons_append, List.dropWhile, hc]
    exact ih r (fun x hx => h1 x (List.mem_cons_of_mem c hx)) h2

theorem splitOnChar_ne_nil (sep : Char) : ∀ l : List Char, splitOnChar sep l ≠ [] := by
  intro l
  induction l with
  | nil => simp [splitOnChar]
  | cons c t ih =>
    simp only [splitOnChar]
    split
    · simp
    · cases h : splitOnChar sep t with
      | nil => exact absurd h ih
      | cons a b => simp

theorem splitOnChar_of_not_mem (sep : Char) :
    ∀ l : List Char, sep ∉ l → splitOnChar sep l = [l] := by
  intro l
  induction l with
  | nil => intro _; rfl
  | cons c t ih =>
    intro h
    have hc : ¬ c = sep := fun hh => h (hh ▸ List.mem_cons_self c t)
    have ht : sep ∉ t := fun hh => h (List.mem_cons_of_mem c hh)
    simp only [splitOnChar, if_neg hc, ih ht]

theorem splitOnChar_append (sep : Char) :
    ∀ (l r : List Char), sep ∉ l →
      splitOnChar sep (l ++ sep :: r) = l :: splitOnChar sep r := by
  intro l
  induction l with
  | nil => intro r _; simp [splitOnChar]
  | cons c t ih =>
    intro r h
    have hc : ¬ c = sep := fun hh => h (hh ▸ List.mem_cons_self c t)
    have ht : sep ∉ t := fun hh => h (List.mem_cons_of_mem c hh)
    simp only [List.cons_append, splitOnChar, List.append_eq, if_neg hc, ih r ht]

/-- Join text entries with a separator character (the textual inverse of
`splitOnChar` used to state claims about comma-separated index specs). -/
def joinSep (sep : Char) : List (List Char) → List Char
  | [] => []
  | [e] => e
  | e :: e' :: es => e ++ sep :: joinSep sep (e' :: es)

theorem splitOnChar_joinSep (sep : Char) :
    ∀ es : List (List Char), es ≠ [] → (∀ e ∈ es, sep ∉ e) →
      splitOnChar sep (joinSep sep es) = es := by
  intro es
  induction es with
  | nil => intro h; exact absurd rfl h
  | cons e es ih =>
    intro _ hmem
    cases es with
    | nil => exact splitOnChar_of_not_mem sep e (hmem e (List.mem_cons_self e []))
    | cons e' es' =>
      have h1 : sep ∉ e := hmem e (List.mem_cons_self e _)
      have h2 : ∀ x ∈ e' :: es', sep ∉ x := fun x hx => hmem x (List.mem_cons_of_mem e hx)
      simp only [joinSep, splitOnChar_append sep e _ h1,
        ih (by simp) h2]

theorem parseUIntCore_digits (bound : Nat) (cs : List Char) (h1 : cs ≠ [])
    (h2 : ∀ c ∈ cs, c.isDigit = true) (h3 : digitsToNat cs < bound) :
    parseUIntCore bound cs = some (digitsToNat cs) := by
  cases cs with
  | nil => exact absurd rfl h1
  | cons c t =>
    have hd : c.isDigit = true := h2 c (List.mem_cons_self c t)
    have hplus : ¬ (c :: t).head? = some '+' := by
      intro hh
      have : c = '+' := by simpa using hh
      rw [this] at hd
      simp [Char.isDigit] at hd
    simp only [parseUIntCore, if_neg hplus]
    rw [if_neg (by simp), if_pos (by simpa [List.all_eq_true] using h2), if_pos h3]

structure Job where
  partition : String
  nodes : String
  gres_detail : List String
  deriving DecidableEq, Repr

/-- `process_preempted_jobs` (src/main.rs:92-101): filter to the
`"preempted"` partition, then extract a GPU allocation from every detail
string, keeping job order then detail order. -/
def process_preempted_jobs (jobs : List Job) : List GpuAllocation :=
  (jobs.filter (fun job => job.partition == "preempted")).flatMap
    (fun job => job.gres_detail.filterMap (fun gres => parse_gpu_allocation gres job.nodes))

structure GresStatus where
  model : String
  count : Nat
  deriving DecidableEq, Repr

/-- Character class of the regex `\w` (restricted to ASCII, the domain of
scheduler GRES descriptors). -/
def isWordChar (c : Char) : Bool := c.isAlphanum || c == '_'

/-- Anchored match of the regex `(\w+:\w+):(\d+)` at the start of `cs`,
returning the `model` and `count` captures.  Because `\w` excludes `:`
and nothing follows the final greedy `\d+`, backtracking cannot shorten
any of the three runs: each quantifier takes exactly the maximal run. -/
def matchModelCountAt (cs : List Char) : Option (List Char × List Char) :=
  let w1 := cs.takeWhile isWordChar
  match cs.dropWhile isWordChar with
  | ':' :: r2 =>
    if w1.isEmpty then none
    else
      let w2 := r2.takeWhile isWordChar
      match r2.dropWhile isWordChar with
      | ':' :: r4 =>
        if w2.isEmpty then none
        else
          let d := r4.takeWhile Char.isDigit
          if d.isEmpty then none else some (w1 ++ ':' :: w2, d)
      | _ => none
  | _ => none

/-- Leftmost match of `(\w+:\w+):(\d+)` (`Regex::captures` semantics):
try each start position from the left. -/
def regexSearchModelCount : List Char → Option (List Char × List Char)
  | [] => none
  | c :: cs =>
    match matchModelCountAt (c :: cs) with
    | some r => some r
    | none => regexSearchModelCount cs

theorem regexSearch_none_of_no_match :
    ∀ cs : List Char, (∀ i, matchModelCountAt (cs.drop i) = none) →
      regexSearchModelCount cs = none := by
  intro cs
  induction cs with
  | nil => intro _; rfl
  | cons c t ih =>
    intro h
    simp only [regexSearchModelCount]
    rw [show matchModelCountAt (c :: t) = none from h 0]
    exact ih (fun i => h (i + 1))

theorem no_match_of_regexSearch_none :
    ∀ cs : List Char, regexSearchModelCount cs = none →
      ∀ i, matchModelCountAt (cs.drop i) = none := by
  intro cs
  induction cs with
  | nil =>
    intro _ i
    simp only [List.drop_nil]
    rfl
  | cons c t ih =>
    intro h i
    have hsplit : matchModelCountAt (c :: t) = none ∧ regexSearchModelCount t = none := by
      revert h
      simp only [regexSearchModelCount]
      cases matchModelCountAt (c :: t) with
      | some r => intro h; cases h
      | none => intro h; exact ⟨rfl, h⟩
    cases i with
    | zero => exact hsplit.1
    | succ j => exact ih hsplit.2 j

/-- `GresStatus::from_str` (src/main.rs:127-142): `""` and `"(null)"`
parse to the empty status; otherwise the first regex match supplies the
model and count captures, and a failed match or an out-of-range count is
an error (`anyhow` context / `ParseIntError` rendered as a message). -/
def GresStatus.from_str (s : String) : Except String GresStatus :=
  if s = "" ∨ s = "(null)" then .ok ⟨"", 0⟩
  else
    match regexSearchModelCount s.toList with
    | none => .error "Matching Gres status failed!"
    | some (model, countDigits) =>
      match parseUsize countDigits with
      | some n => .ok ⟨String.mk model, n⟩
      | none => .error "number too large to fit in target type"

example : GresStatus.from_str "" = .ok ⟨"", 0⟩ := by decide
example : GresStatus.from_str "(null)" = .ok ⟨"", 0⟩ := by decide
example : GresStatus.from_str "gpu:a100:4(IDX:0-3)" = .ok ⟨"gpu:a100", 4⟩ := by decide
example : GresStatus.from_str "gpu:8" = .error "Matching Gres status failed!" := by decide

structure Node where
  hostname : String
  state : List String
  partitions : List String
  cpus : Nat
  alloc_idle_cpus : Nat
  real_memory : Nat
  alloc_memory : Nat
  gres : String
  gres_used : String
  deriving Repr

/-- Model of the `colored` crate's `ColoredString`: the text plus the
requested style; rendering uses the plain text (non-tty output). -/
structure ColoredString where
  text : String
  style : String
  deriving DecidableEq, Repr

/-- `repeat_colored_char` (src/main.rs:145-150). -/
def repeat_colored_char (character : Char) (number : Nat) (color : String) : ColoredString :=
  ⟨String.mk (List.replicate number character), color⟩

/-- `format_ratio` (src/main.rs:152-154). -/
def format_ratio (used total : Nat) : String :=
  toString used ++ "/" ++ toString total

/-- One element of the state-colouring map at src/main.rs:185-197;
styling is metadata, so the rendered text is the tag itself. -/
def colorState (s : String) : String :=
  match s with
  | "IDLE" => (ColoredString.mk s "green").text
  | "MIXED" => (ColoredString.mk s "blue").text
  | "ALLOCATED" => (ColoredString.mk s "magenta").text
  | "DRAIN" => (ColoredString.mk s "yellow").text
  | "DOWN" => (ColoredString.mk s "red").text
  | _ => s

/-- Failure modes of `TableNode::from_node`: a propagated descriptor
parse error, or an arithmetic fault from unchecked `usize` subtraction
(a panic in debug builds). -/
inductive RunError where
  | parseError (msg : String)
  | arithFault (msg : String)
  deriving DecidableEq, Repr

/-- Unchecked Rust `usize` subtraction `a - b`: faults when `b > a`. -/
def checkedSub (a b : Nat) : Except RunError Nat :=
  if b ≤ a then .ok (a - b) else .error (.arithFault "attempt to subtract with overflow")

structure TableNode where
  hostname : String
  cpus_available : String
  memory_available : String
  gres : String
  gres_status : String
  state : String
  deriving DecidableEq, Repr

/-- The first-match preempted-GPU lookup in `TableNode::from_node`
(src/main.rs:173-177). -/
def preemptedCountOf (hostname : String) (preempted_gpus : List GpuAllocation) : Nat :=
  ((preempted_gpus.find? (fun gpu => gpu.node == hostname)).map (fun gpu => gpu.gpus)).getD 0

/-- `regular_used_count` (src/main.rs:179): `saturating_sub`, which `Nat`
subtraction is. -/
def regularUsedCount (used_count preempted_count : Nat) : Nat :=
  used_count - preempted_count

/-- `TableNode::from_node` (src/main.rs:167-209).  The two unchecked
subtractions (src/main.rs:170 and 202) go through `checkedSub` so that
the arithmetic fault is observable. -/
def TableNode.from_node (node : Node) (preempted_gpus : List GpuAllocation) :
    Except RunError TableNode :=
  match GresStatus.from_str node.gres with
  | .error e => .error (.parseError e)
  | .ok gres_total =>
    match GresStatus.from_str node.gres_used with
    | .error e => .error (.parseError e)
    | .ok gres_used =>
      match checkedSub gres_total.count gres_used.count with
      | .error e => .error e
      | .ok idle_count =>
        let preempted_count := preemptedCountOf node.hostname preempted_gpus
        let regular_used_count := regularUsedCount gres_used.count preempted_count
        let regular_used_print := repeat_colored_char 'u' regular_used_count "red"
        let preempted_print := repeat_colored_char 'p' preempted_count "yellow"
        let idle_print := repeat_colored_char 'i' idle_count "green"
        let state_colored := String.intercalate "," (node.state.map colorState)
        match checkedSub node.real_memory node.alloc_memory with
        | .error e => .error e
        | .ok avail_memory =>
          .ok
            { hostname := node.hostname
              cpus_available := format_ratio node.alloc_idle_cpus node.cpus
              memory_available :=
                format_ratio (avail_memory / 1000) (node.real_memory / 1000) ++ "G"
              gres := gres_total.model
              gres_status := regular_used_print.text ++ preempted_print.text ++ idle_print.text
              state := state_colored }

example :
    TableNode.from_node
      { hostname := "n1", state := ["MIXED"], partitions := ["gpu"], cpus := 64,
        alloc_idle_cpus := 32, real_memory := 128000, alloc_memory := 32000,
        gres := "gpu:a100:8", gres_used := "gpu:a100:3" }
      [⟨"n1", 2⟩] =
    .ok
      { hostname := "n1", cpus_available := "32/64", memory_available := "96/128G",
        gres := "gpu:a100", gres_status := "uppiiiii", state := "MIXED" } := by decide

/-! ## Spec-side definitions, written from the specification's wording,
to be compared against the embedded source functions. -/

/-- Spec 4.2 fallback path: "take the third colon-separated segment,
consume its leading run of decimal digits, parse as an integer. If
parsing yields a value > 0, produce the allocation; if it yields 0 or
fails to parse, produce none." -/
def fallbackSpec (gres_str node : String) : Option GpuAllocation :=
  let seg := (splitOnChar ':' gres_str.toList).getD 2 []
  let digits := seg.takeWhile Char.isDigit
  match parseU32 digits with
  | some v => if 0 < v then some ⟨node, v⟩ else none
  | none => none

/-- The count the IDX path of `parse_gpu_allocation` derives, when the
string has a parenthesized `(IDX:<spec>)` segment: `none` when there is
no such segment. -/
def idxDerivedCount (gres_str : String) : Option Nat :=
  let cs := gres_str.toList
  match findSubstrIdx idxPat cs with
  | some idx_start =>
    match (cs.drop idx_start).findIdx? (fun c => c == ')') with
    | some idx_end => some (count_gpu_indices_core (((cs.drop idx_start).take idx_end).drop 5))
    | none => none
  | none => none

/-- An entry of an IDX spec as the spec's grammar describes it: a single
non-negative integer, or an inclusive range `a-b` (both written as digit
runs). -/
inductive IdxEntry where
  | single (digits : List Char)
  | range (lo hi : List Char)

/-- The text of an IDX entry. -/
def IdxEntry.render : IdxEntry → List Char
  | .single d => d
  | .range a b => a ++ '-' :: b

/-- Well-formedness of an entry: nonempty digit runs denoting values in
`u32` range. -/
def IdxEntry.Wf : IdxEntry → Prop
  | .single d => d ≠ [] ∧ (∀ c ∈ d, c.isDigit = true) ∧ digitsToNat d < 2 ^ 32
  | .range a b =>
      (a ≠ [] ∧ (∀ c ∈ a, c.isDigit = true) ∧ digitsToNat a < 2 ^ 32) ∧
      (b ≠ [] ∧ (∀ c ∈ b, c.isDigit = true) ∧ digitsToNat b < 2 ^ 32)

/-- Spec 4.2: "Count = sum over list entries: 1 per single integer,
`(b - a + 1)` per range where `b >= a` (ranges with `b < a` contribute
0)". -/
def IdxEntry.specCount : IdxEntry → Nat
  | .single _ => 1
  | .range a b => if digitsToNat a ≤ digitsToNat b then digitsToNat b - digitsToNat a + 1 else 0

instance : (e : IdxEntry) → Decidable e.Wf
  | .single d =>
    inferInstanceAs (Decidable (d ≠ [] ∧ (∀ c ∈ d, c.isDigit = true) ∧ digitsToNat d < 2 ^ 32))
  | .range a b =>
    inferInstanceAs (Decidable
      ((a ≠ [] ∧ (∀ c ∈ a, c.isDigit = true) ∧ digitsToNat a < 2 ^ 32) ∧
        (b ≠ [] ∧ (∀ c ∈ b, c.isDigit = true) ∧ digitsToNat b < 2 ^ 32)))

theorem digit_bne_dash {c : Char} (h : c.isDigit = true) : (c != '-') = true := by
  have hne : c ≠ '-' := by
    intro he
    rw [he] at h
    exact absurd h (by decide)
  simpa using hne

theorem comma_not_mem_of_digits {d : List Char} (h : ∀ c ∈ d, c.isDigit = true) :
    ',' ∉ d := by
  intro hmem
  exact absurd (h ',' hmem) (by decide)

theorem countIdxEntry_single (d : List Char) (h1 : d ≠ [])
    (h2 : ∀ c ∈ d, c.isDigit = true) (h3 : digitsToNat d < 2 ^ 32) :
    countIdxEntry d = 1 := by
  have hdrop : d.dropWhile (fun c => c != '-') = [] := by
    have := dropWhile_append_run (fun c => c != '-') d []
      (fun c hc => digit_bne_dash (h2 c hc)) (fun c hc => by cases hc)
    simpa using this
  simp only [countIdxEntry, hdrop, parseU32, parseUIntCore_digits (2 ^ 32) d h1 h2 h3,
    Option.isSome_some, if_true]

theorem countIdxEntry_range (a b : List Char)
    (ha1 : a ≠ []) (ha2 : ∀ c ∈ a, c.isDigit = true) (ha3 : digitsToNat a < 2 ^ 32)
    (hb1 : b ≠ []) (hb2 : ∀ c ∈ b, c.isDigit = true) (hb3 : digitsToNat b < 2 ^ 32) :
    countIdxEntry (a ++ '-' :: b) =
      if digitsToNat a ≤ digitsToNat b then wrapU32 (digitsToNat b - digitsToNat a + 1)
      else 0 := by
  have hhead : ∀ c, ('-' :: b).head? = some c → (c != '-') = false := by
    intro c hc
    have : c = '-' := by simpa using hc.symm
    simp [this]
  have htake : (a ++ '-' :: b).takeWhile (fun c => c != '-') = a :=
    takeWhile_append_run _ a ('-' :: b) (fun c hc => digit_bne_dash (ha2 c hc)) hhead
  have hdrop : (a ++ '-' :: b).dropWhile (fun c => c != '-') = '-' :: b :=
    dropWhile_append_run _ a ('-' :: b) (fun c hc => digit_bne_dash (ha2 c hc)) hhead
  simp only [countIdxEntry, htake, hdrop, parseU32,
    parseUIntCore_digits (2 ^ 32) a ha1 ha2 ha3,
    parseUIntCore_digits (2 ^ 32) b hb1 hb2 hb3, Option.getD_some]

theorem countIdxEntry_render_eq_specCount (e : IdxEntry) (h : e.Wf)
    (hlt : e.specCount < 2 ^ 32) :
    countIdxEntry e.render = e.specCount := by
  cases e with
  | single d =>
    obtain ⟨h1, h2, h3⟩ := h
    exact countIdxEntry_single d h1 h2 h3
  | range a b =>
    obtain ⟨⟨ha1, ha2, ha3⟩, hb1, hb2, hb3⟩ := h
    rw [show (IdxEntry.range a b).render = a ++ '-' :: b from rfl,
      countIdxEntry_range a b ha1 ha2 ha3 hb1 hb2 hb3]
    by_cases hab : digitsToNat a ≤ digitsToNat b
    · have hfit : digitsToNat b - digitsToNat a + 1 < 2 ^ 32 := by
        simpa [IdxEntry.specCount, if_pos hab] using hlt
      simp only [IdxEntry.specCount, if_pos hab, wrapU32]
      omega
    · simp [IdxEntry.specCount, if_neg hab]

theorem foldl_wrapU32_add :
    ∀ (xs : List Nat) (acc : Nat), acc + xs.sum < 2 ^ 32 →
      xs.foldl (fun a x => wrapU32 (a + x)) acc = acc + xs.sum := by
  intro xs
  induction xs with
  | nil => intro acc _; simp
  | cons x xs ih =>
    intro acc h
    rw [List.sum_cons] at h
    have hax : wrapU32 (acc + x) = acc + x := Nat.mod_eq_of_lt (by omega)
    simp only [List.foldl_cons, hax]
    rw [ih (acc + x) (by omega), List.sum_cons]
    omega

theorem comma_not_mem_render (e : IdxEntry) (h : e.Wf) : ',' ∉ e.render := by
  cases e with
  | single d => exact comma_not_mem_of_digits h.2.1
  | range a b =>
    intro hmem
    simp only [IdxEntry.render, List.mem_append, List.mem_cons] at hmem
    rcases hmem with hm | hm | hm
    · exact comma_not_mem_of_digits h.1.2.1 hm
    · cases hm
    · exact comma_not_mem_of_digits h.2.2.1 hm

/-- Spec 4.3, extraction over one job's detail strings in order. -/
def extractJobAllocs (node : String) : List String → List GpuAllocation
  | [] => []
  | g :: gs =>
    match parse_gpu_allocation g node with
    | some a => a :: extractJobAllocs node gs
    | none => extractJobAllocs node gs

/-- Spec 4.3: filter to the `"preempted"` partition, then extract from
every surviving job's detail sequence, in job order then detail order. -/
def correlatorSpec : List Job → List GpuAllocation
  | [] => []
  | j :: js =>
    (if j.partition = "preempted" then extractJobAllocs j.nodes j.gres_detail else []) ++
      correlatorSpec js

theorem parse_fallthrough_some_some (gres_str node : String) (idx_start idx_end : Nat)
    (hp : ['g', 'p', 'u'].isPrefixOf gres_str.toList = true)
    (hlen : 3 ≤ (splitOnChar ':' gres_str.toList).length)
    (hi : findSubstrIdx idxPat gres_str.toList = some idx_start)
    (hj : (gres_str.toList.drop idx_start).findIdx? (fun c => c == ')') = some idx_end)
    (hc : count_gpu_indices_core (((gres_str.toList.drop idx_start).take idx_end).drop 5) = 0) :
    parse_gpu_allocation gres_str node = fallbackSpec gres_str node := by
  simp only [parse_gpu_allocation, if_neg (not_not_intro hp),
    if_neg (Nat.not_lt.mpr hlen), hi, hj, hc]
  simp [fallbackSpec]

theorem parse_fallthrough_no_idx (gres_str node : String)
    (hp : ['g', 'p', 'u'].isPrefixOf gres_str.toList = true)
    (hlen : 3 ≤ (splitOnChar ':' gres_str.toList).length)
    (hi : findSubstrIdx idxPat gres_str.toList = none) :
    parse_gpu_allocation gres_str node = fallbackSpec gres_str node := by
  simp only [parse_gpu_allocation, if_neg (not_not_intro hp),
    if_neg (Nat.not_lt.mpr hlen), hi]
  simp [fallbackSpec]

theorem parse_fallthrough_no_rparen (gres_str node : String) (idx_start : Nat)
    (hp : ['g', 'p', 'u'].isPrefixOf gres_str.toList = true)
    (hlen : 3 ≤ (splitOnChar ':' gres_str.toList).length)
    (hi : findSubstrIdx idxPat gres_str.toList = some idx_start)
    (hj : (gres_str.toList.drop idx_start).findIdx? (fun c => c == ')') = none) :
    parse_gpu_allocation gres_str node = fallbackSpec gres_str node := by
  simp only [parse_gpu_allocation, if_neg (not_not_intro hp),
    if_neg (Nat.not_lt.mpr hlen), hi, hj]
  simp [fallbackSpec]

/-! ## Claim theorems -/

/-- C1 counterexample: the claim's sum rule, read over unbounded
integers, fails on the code because `count_gpu_indices` accumulates in a
`u32`: for the single well-ordered range `0-4294967295` the claimed sum
is `4294967296 = 2 ^ 32`, but the `u32` expression `end - start + 1`
overflows — wrapping to 0 in a release build (panicking in a debug
build) — so the extractor falls through to the fallback digit-prefix
path instead of producing the claimed count. -/
theorem c1_counterexample :
    count_gpu_indices "0-4294967295" ≠ 4294967296 ∧
      count_gpu_indices "0-4294967295" = 0 ∧
      parse_gpu_allocation "gpu:a100:4(IDX:0-4294967295)" "n" = some ⟨"n", 4⟩ := by
  exact ⟨by decide, by decide, by decide⟩

/-- C1 (amended): for an IDX spec made of comma-separated entries, the
derived GPU count is the sum over entries of 1 per single non-negative
integer and `b - a + 1` per inclusive range `a-b` with `b >= a` (`b < a`
contributes 0), provided that sum is below `2 ^ 32` (otherwise the
`u32` accumulation overflows: wrap in release builds, panic in debug
builds); when the IDX-derived count is 0 the extractor falls through to
the fallback digit-prefix path instead of returning a zero allocation;
and the index spec `"0,2-7"` yields count 7. -/
theorem c1_idx_count_sum_and_fallthrough :
    (∀ es : List IdxEntry, es ≠ [] → (∀ e ∈ es, e.Wf) →
      (es.map IdxEntry.specCount).sum < 2 ^ 32 →
      count_gpu_indices_core (joinSep ',' (es.map IdxEntry.render)) =
        (es.map IdxEntry.specCount).sum) ∧
    (∀ (gres_str node : String) (idx_start idx_end : Nat),
      ['g', 'p', 'u'].isPrefixOf gres_str.toList = true →
      3 ≤ (splitOnChar ':' gres_str.toList).length →
      findSubstrIdx idxPat gres_str.toList = some idx_start →
      (gres_str.toList.drop idx_start).findIdx? (fun c => c == ')') = some idx_end →
      count_gpu_indices_core (((gres_str.toList.drop idx_start).take idx_end).drop 5) = 0 →
      parse_gpu_allocation gres_str node = fallbackSpec gres_str node) ∧
    count_gpu_indices "0,2-7" = 7 := by
  refine ⟨?_, ?_, by decide⟩
  · intro es hne hwf hsum
    have hmap_ne : es.map IdxEntry.render ≠ [] := by
      cases es with
      | nil => exact absurd rfl hne
      | cons e es => simp
    have hnomem : ∀ l ∈ es.map IdxEntry.render, ',' ∉ l := by
      intro l hl
      obtain ⟨e, he, rfl⟩ := List.mem_map.mp hl
      exact comma_not_mem_render e (hwf e he)
    have hmapeq : (es.map IdxEntry.render).map countIdxEntry = es.map IdxEntry.specCount := by
      rw [List.map_map]
      exact List.map_congr_left (fun e he =>
        countIdxEntry_render_eq_specCount e (hwf e he)
          (Nat.lt_of_le_of_lt
            (List.single_le_sum (fun x _ => Nat.zero_le x) _
              (List.mem_map_of_mem IdxEntry.specCount he)) hsum))
    rw [count_gpu_indices_core,
      splitOnChar_joinSep ',' (es.map IdxEntry.render) hmap_ne hnomem,
      ← List.foldl_map countIdxEntry (fun a x => wrapU32 (a + x)) (es.map IdxEntry.render) 0,
      hmapeq, foldl_wrapU32_add _ 0 (by simpa using hsum), Nat.zero_add]
  · intro gres_str node idx_start idx_end hp hlen hi hj hc
    exact parse_fallthrough_some_some gres_str node idx_start idx_end hp hlen hi hj hc

/-- C1 witness: instantiation of the sum rule on the entries of
`"0,2-7"`, and of the fall-through on a string whose IDX segment has an
empty range (`5-2`) but a usable digit-prefix count. -/
theorem c1_witness :
    count_gpu_indices_core
        (joinSep ',' ([IdxEntry.single ['0'], IdxEntry.range ['2'] ['7']].map IdxEntry.render)) =
      ([IdxEntry.single ['0'], IdxEntry.range ['2'] ['7']].map IdxEntry.specCount).sum ∧
    parse_gpu_allocation "gpu:a100:4(IDX:5-2)" "n" = fallbackSpec "gpu:a100:4(IDX:5-2)" "n" :=
  ⟨c1_idx_count_sum_and_fallthrough.1 [IdxEntry.single ['0'], IdxEntry.range ['2'] ['7']]
      (by simp) (by decide) (by decide),
    c1_idx_count_sum_and_fallthrough.2.1 "gpu:a100:4(IDX:5-2)" "n" 10 8
      (by decide) (by decide) (by decide) (by decide) (by decide)⟩

/-- C2: on a `gpu`-prefixed detail string with at least three
colon-separated segments whose IDX path derives no positive count, the
extractor equals the fallback of spec 4.2: digit prefix of the third
segment, positive value required. -/
theorem c2_fallback_digit_prefix :
    ∀ (gres_str node : String),
      ['g', 'p', 'u'].isPrefixOf gres_str.toList = true →
      3 ≤ (splitOnChar ':' gres_str.toList).length →
      (∀ c, idxDerivedCount gres_str = some c → c = 0) →
      parse_gpu_allocation gres_str node = fallbackSpec gres_str node := by
  intro gres_str node hp hlen hidx
  cases hi : findSubstrIdx idxPat gres_str.toList with
  | none => exact parse_fallthrough_no_idx gres_str node hp hlen hi
  | some idx_start =>
    cases hj : (gres_str.toList.drop idx_start).findIdx? (fun c => c == ')') with
    | none => exact parse_fallthrough_no_rparen gres_str node idx_start hp hlen hi hj
    | some idx_end =>
      have h0 : count_gpu_indices_core
          (((gres_str.toList.drop idx_start).take idx_end).drop 5) = 0 :=
        hidx _ (by simp only [idxDerivedCount, hi, hj])
      exact parse_fallthrough_some_some gres_str node idx_start idx_end hp hlen hi hj h0

/-- C2 witness: on `"gpu:v100:2"` (no IDX segment) the extractor follows
the fallback digit-prefix path. -/
theorem c2_witness :
    ['g', 'p', 'u'].isPrefixOf ("gpu:v100:2" : String).toList = true ∧
      3 ≤ (splitOnChar ':' ("gpu:v100:2" : String).toList).length ∧
      parse_gpu_allocation "gpu:v100:2" "n" = fallbackSpec "gpu:v100:2" "n" :=
  ⟨by decide, by decide,
    c2_fallback_digit_prefix "gpu:v100:2" "n" (by decide) (by decide)
      (fun c hc => by
        rw [show idxDerivedCount "gpu:v100:2" = none from by decide] at hc
        cases hc)⟩

theorem matchModelCountAt_exact (m1 m2 n t : List Char)
    (hm1 : m1 ≠ []) (hm2 : m2 ≠ []) (hn : n ≠ [])
    (hw1 : ∀ c ∈ m1, isWordChar c = true) (hw2 : ∀ c ∈ m2, isWordChar c = true)
    (hd : ∀ c ∈ n, c.isDigit = true)
    (ht : ∀ c, t.head? = some c → c.isDigit = false) :
    matchModelCountAt (m1 ++ ':' :: (m2 ++ ':' :: (n ++ t))) = some (m1 ++ ':' :: m2, n) := by
  have hcol : ∀ (r : List Char) (c : Char),
      ((':' : Char) :: r).head? = some c → isWordChar c = false := by
    intro r c hc
    have : c = ':' := by simpa using hc.symm
    rw [this]
    decide
  have h1t := takeWhile_append_run isWordChar m1 (':' :: (m2 ++ ':' :: (n ++ t))) hw1 (hcol _)
  have h1d := dropWhile_append_run isWordChar m1 (':' :: (m2 ++ ':' :: (n ++ t))) hw1 (hcol _)
  have h2t := takeWhile_append_run isWordChar m2 (':' :: (n ++ t)) hw2 (hcol _)
  have h2d := dropWhile_append_run isWordChar m2 (':' :: (n ++ t)) hw2 (hcol _)
  have h3t := takeWhile_append_run Char.isDigit n t hd ht
  simp only [matchModelCountAt, h1t, h1d, h2t, h2d, h3t]
  rw [if_neg (by simpa [List.isEmpty_iff] using hm1),
    if_neg (by simpa [List.isEmpty_iff] using hm2),
    if_neg (by simpa [List.isEmpty_iff] using hn)]

/-- C4 counterexample: the claim quantifies over all decompositions
`<m1>:<m2>:<n><trailing>`; at `m1 = "a"`, `m2 = "b"`, `n = "1"`,
trailing `"2"` the parser returns count 12, not 1, because the count
capture `\d+` also consumes digit-initial trailing text. -/
theorem c4_counterexample :
    GresStatus.from_str ("a" ++ ":" ++ "b" ++ ":" ++ "1" ++ "2") ≠
        Except.ok ⟨"a" ++ ":" ++ "b", 1⟩ ∧
      GresStatus.from_str ("a" ++ ":" ++ "b" ++ ":" ++ "1" ++ "2") =
        Except.ok ⟨"a:b", 12⟩ ∧
      GresStatus.from_str ("a" ++ ":" ++ "b" ++ ":" ++ "99999999999999999999") =
        Except.error "number too large to fit in target type" := by
  exact ⟨by decide, by decide, by decide⟩

/-- C4 (amended): for every descriptor `<m1>:<m2>:<n>` with `m1`, `m2`
nonempty word-character sequences and `n` a nonempty digit sequence
whose value fits the machine word, optionally followed by trailing text
that does not begin with a decimal digit, the parser returns
`model = <m1>:<m2>` and `count = n`. -/
theorem c4_model_count_parse :
    ∀ m1 m2 n t : List Char,
      m1 ≠ [] → m2 ≠ [] → n ≠ [] →
      (∀ c ∈ m1, isWordChar c = true) → (∀ c ∈ m2, isWordChar c = true) →
      (∀ c ∈ n, c.isDigit = true) →
      digitsToNat n < 2 ^ 64 →
      (∀ c, t.head? = some c → c.isDigit = false) →
      GresStatus.from_str (String.mk (m1 ++ ':' :: (m2 ++ ':' :: (n ++ t)))) =
        .ok ⟨String.mk (m1 ++ ':' :: m2), digitsToNat n⟩ := by
  intro m1 m2 n t hm1 hm2 hn hw1 hw2 hd hbound ht
  obtain ⟨c, m1', rfl⟩ : ∃ c m1', m1 = c :: m1' := by
    cases m1 with
    | nil => exact absurd rfl hm1
    | cons c m => exact ⟨c, m, rfl⟩
  have hcw : isWordChar c = true := hw1 c (List.mem_cons_self _ _)
  have hne1 : ¬ (String.mk ((c :: m1') ++ ':' :: (m2 ++ ':' :: (n ++ t))) = "") := by
    intro h
    have := congrArg String.data h
    simp at this
  have hne2 : ¬ (String.mk ((c :: m1') ++ ':' :: (m2 ++ ':' :: (n ++ t))) = "(null)") := by
    intro h
    have hdata := congrArg String.data h
    simp only [List.cons_append] at hdata
    have hc : c = '(' := (List.cons.injEq _ _ _ _ ▸ hdata).1
    rw [hc] at hcw
    exact absurd hcw (by decide)
  rw [GresStatus.from_str, if_neg (by rintro (h | h); exacts [hne1 h, hne2 h])]
  have hsearch :
      regexSearchModelCount (String.mk ((c :: m1') ++ ':' :: (m2 ++ ':' :: (n ++ t)))).toList =
        some ((c :: m1') ++ ':' :: m2, n) := by
    show regexSearchModelCount ((c :: m1') ++ ':' :: (m2 ++ ':' :: (n ++ t))) = _
    rw [List.cons_append, regexSearchModelCount,
      show matchModelCountAt (c :: (m1' ++ ':' :: (m2 ++ ':' :: (n ++ t)))) =
          some ((c :: m1') ++ ':' :: m2, n) from
        List.cons_append c m1' _ ▸
          matchModelCountAt_exact (c :: m1') m2 n t hm1 hm2 hn hw1 hw2 hd ht]
  simp only [hsearch,
    show parseUsize n = some (digitsToNat n) from
      parseUIntCore_digits (2 ^ 64) n hn hd hbound]

/-- C4 witness: instantiation on `"gpu:a100:4(IDX:0-3)"`. -/
theorem c4_witness :
    GresStatus.from_str
        (String.mk (['g', 'p', 'u'] ++ ':' :: (['a', '1', '0', '0'] ++ ':' ::
          (['4'] ++ ['(', 'I', 'D', 'X', ':', '0', '-', '3', ')'])))) =
      .ok ⟨String.mk (['g', 'p', 'u'] ++ ':' :: ['a', '1', '0', '0']),
        digitsToNat ['4']⟩ :=
  c4_model_count_parse ['g', 'p', 'u'] ['a', '1', '0', '0'] ['4']
    ['(', 'I', 'D', 'X', ':', '0', '-', '3', ')']
    (by decide) (by decide) (by decide) (by decide) (by decide) (by decide) (by decide)
    (by decide)

/-- C5 counterexample: the claim says a failed parse identifies the
offending string; the error message for input `"x"` is the fixed text
`"Matching Gres status failed!"` (src/main.rs:137), which does not
contain the offending string at all. -/
theorem c5_counterexample :
    GresStatus.from_str "x" = .error "Matching Gres status failed!" ∧
      'x' ∉ ("Matching Gres status failed!" : String).toList := by
  exact ⟨by decide, by decide⟩

/-- C5 (amended): the parser maps `""` and `"(null)"` to
`{model: "", count: 0}` without error; every other input in which no
position matches the `<word>:<word>:<count>` grammar fails with the
fixed message `"Matching Gres status failed!"`, and an input whose
matched count segment does not parse as a machine-word integer fails
with an integer-overflow message; neither message includes the
offending string. -/
theorem c5_sentinels_and_error_modes :
    GresStatus.from_str "" = .ok ⟨"", 0⟩ ∧
    GresStatus.from_str "(null)" = .ok ⟨"", 0⟩ ∧
    (∀ s : String, ¬ s = "" → ¬ s = "(null)" →
      (∀ i, matchModelCountAt (s.toList.drop i) = none) →
      GresStatus.from_str s = .error "Matching Gres status failed!") ∧
    (∀ (s : String) (m d : List Char), ¬ s = "" → ¬ s = "(null)" →
      regexSearchModelCount s.toList = some (m, d) → parseUsize d = none →
      GresStatus.from_str s = .error "number too large to fit in target type") := by
  refine ⟨by decide, by decide, ?_, ?_⟩
  · intro s h1 h2 hnm
    rw [GresStatus.from_str, if_neg (by rintro (h | h); exacts [h1 h, h2 h]),
      regexSearch_none_of_no_match s.toList hnm]
  · intro s m d h1 h2 hsearch hparse
    rw [GresStatus.from_str, if_neg (by rintro (h | h); exacts [h1 h, h2 h])]
    simp only [hsearch, hparse]

/-- C5 witness: a non-matching input and an overflowing count each
produce their fixed error message. -/
theorem c5_witness :
    GresStatus.from_str "foo" = .error "Matching Gres status failed!" ∧
      GresStatus.from_str "a:b:99999999999999999999" =
        .error "number too large to fit in target type" :=
  ⟨c5_sentinels_and_error_modes.2.2.1 "foo" (by decide) (by decide)
      (no_match_of_regexSearch_none ("foo" : String).toList (by decide)),
    c5_sentinels_and_error_modes.2.2.2 "a:b:99999999999999999999" ['a', ':', 'b']
      ['9', '9', '9', '9', '9', '9', '9', '9', '9', '9', '9', '9', '9', '9', '9', '9', '9',
        '9', '9', '9']
      (by decide) (by decide) (by decide) (by decide)⟩

/-- C3: every input string that does not start with `gpu`, or splits on
`:` into fewer than 3 segments, makes `parse_gpu_allocation` return
`none` (a non-error outcome); in particular
`parse_gpu_allocation "cpu:2" "cpu-node-1" = none`. -/
theorem c3_reject_non_gpu_or_short :
    (∀ gres_str node : String,
      (¬ (['g', 'p', 'u'].isPrefixOf gres_str.toList = true) ∨
        (splitOnChar ':' gres_str.toList).length < 3) →
      parse_gpu_allocation gres_str node = none) ∧
    parse_gpu_allocation "cpu:2" "cpu-node-1" = none := by
  refine ⟨?_, by decide⟩
  intro gres_str node h
  by_cases hp : ['g', 'p', 'u'].isPrefixOf gres_str.toList = true
  · have hlen : (splitOnChar ':' gres_str.toList).length < 3 := h.resolve_left (not_not_intro hp)
    simp only [parse_gpu_allocation, if_neg (not_not_intro hp)]
    rw [if_pos hlen]
  · simp only [parse_gpu_allocation, if_pos hp]

/-- C3 witness: a `gpu`-prefixed string with fewer than three segments is
rejected through the segment-count check. -/
theorem c3_witness :
    ((¬ (['g', 'p', 'u'].isPrefixOf ("gpu:0" : String).toList = true) ∨
        (splitOnChar ':' ("gpu:0" : String).toList).length < 3)) ∧
      parse_gpu_allocation "gpu:0" "n" = none :=
  ⟨Or.inr (by decide), c3_reject_non_gpu_or_short.1 "gpu:0" "n" (Or.inr (by decide))⟩

/-- C10: whenever `parse_gpu_allocation` returns `some` allocation, the
GPU count is at least 1 and the node field is the given node identifier;
a zero-count allocation is never produced by either path. -/
theorem c10_some_implies_positive_and_node :
    ∀ (gres_str node : String) (a : GpuAllocation),
      parse_gpu_allocation gres_str node = some a → 1 ≤ a.gpus ∧ a.node = node := by
  intro gres_str node a h
  simp only [parse_gpu_allocation] at h
  split at h
  · cases h
  · split at h
    · cases h
    · split at h
      · split at h
        · split at h
          · cases h
            exact ⟨by assumption, rfl⟩
          · split at h
            · split at h
              · cases h
                exact ⟨by assumption, rfl⟩
              · cases h
            · cases h
        · split at h
          · split at h
            · cases h
              exact ⟨by assumption, rfl⟩
            · cases h
          · cases h
      · split at h
        · split at h
          · cases h
            exact ⟨by assumption, rfl⟩
          · cases h
        · cases h

/-- C9: the claim says building a `TableNode` must not fault when
`gres_used.count > gres.count` or `alloc_memory > real_memory`; the code
(src/main.rs:170 and 202) uses unchecked `usize` subtraction, which
faults on both inputs below (panic in debug builds, wrap-around in
release builds), so the code contradicts the spec's own §7 requirement. -/
theorem c9_unchecked_subtraction_faults :
    TableNode.from_node
      { hostname := "bad1", state := ["MIXED"], partitions := ["gpu"], cpus := 8,
        alloc_idle_cpus := 4, real_memory := 1000, alloc_memory := 0,
        gres := "gpu:a100:1", gres_used := "gpu:a100:2" } [] =
      .error (.arithFault "attempt to subtract with overflow") ∧
    TableNode.from_node
      { hostname := "bad2", state := ["MIXED"], partitions := ["gpu"], cpus := 8,
        alloc_idle_cpus := 4, real_memory := 1000, alloc_memory := 2000,
        gres := "gpu:a100:2", gres_used := "gpu:a100:1" } [] =
      .error (.arithFault "attempt to subtract with overflow") := by
  exact ⟨by decide, by decide⟩

/-- C7: the node view builder's preempted count is the `gpus` value of
the first allocation whose node equals the hostname (0 when none
matches, later matches ignored), and the regular-used count is the
saturating difference `max 0 (used - preempted)`. -/
theorem c7_preempted_lookup_and_saturating_sub :
    (∀ (hostname : String) (l : List GpuAllocation),
      (∀ x ∈ l, x.node ≠ hostname) → preemptedCountOf hostname l = 0) ∧
    (∀ (hostname : String) (l1 : List GpuAllocation) (a : GpuAllocation)
        (l2 : List GpuAllocation),
      (∀ x ∈ l1, x.node ≠ hostname) → a.node = hostname →
      preemptedCountOf hostname (l1 ++ a :: l2) = a.gpus) ∧
    (∀ used preempted : Nat,
      (regularUsedCount used preempted : Int) = max 0 ((used : Int) - (preempted : Int))) := by
  refine ⟨?_, ?_, ?_⟩
  · intro hostname l hall
    have hnone : l.find? (fun gpu => gpu.node == hostname) = none :=
      List.find?_eq_none.mpr (fun x hx => by simpa using hall x hx)
    simp [preemptedCountOf, hnone]
  · intro hostname l1 a l2 hmiss ha
    induction l1 with
    | nil => simp [preemptedCountOf, List.find?_cons, ha]
    | cons x xs ih =>
      have hx : ¬ (x.node == hostname) = true := by
        simpa using hmiss x (List.mem_cons_self x xs)
      simp only [List.cons_append, preemptedCountOf, List.find?_cons,
        Bool.of_not_eq_true hx]
      exact ih (fun y hy => hmiss y (List.mem_cons_of_mem x hy))
  · intro used preempted
    simp only [regularUsedCount]
    rcases Nat.le_total preempted used with h | h
    · rw [Nat.cast_sub h, max_eq_right (sub_nonneg.mpr (by exact_mod_cast h))]
    · rw [Nat.sub_eq_zero_of_le h, max_eq_left (sub_nonpos.mpr (by exact_mod_cast h))]
      rfl

/-- C7 witness: a first matching allocation of 2 GPUs is used even when
a later allocation for the same hostname is present. -/
theorem c7_witness :
    preemptedCountOf "n1" [⟨"other", 5⟩, ⟨"n1", 2⟩, ⟨"n1", 9⟩] = 2 ∧
      preemptedCountOf "n1" [⟨"other", 5⟩] = 0 ∧
      (regularUsedCount 3 2 : Int) = max 0 ((3 : Int) - (2 : Int)) := by
  refine ⟨?_, ?_, c7_preempted_lookup_and_saturating_sub.2.2 3 2⟩
  · exact c7_preempted_lookup_and_saturating_sub.2.1 "n1" [⟨"other", 5⟩] ⟨"n1", 2⟩
      [⟨"n1", 9⟩] (by decide) rfl
  · exact c7_preempted_lookup_and_saturating_sub.1 "n1" [⟨"other", 5⟩] (by decide)

/-- C8: whenever the node's descriptors parse and the bookkeeping is
consistent, the glyph string is exactly `regular_used` repetitions of
`u`, then `preempted` repetitions of `p`, then `idle` repetitions of
`i`; on the concrete 8-total/3-used node with a 2-GPU preempted
allocation the counts are 1/2/5 and the glyph string has 8 characters. -/
theorem c8_glyph_string_segments :
    (∀ (node : Node) (gpus : List GpuAllocation) (total used : GresStatus),
      GresStatus.from_str node.gres = .ok total →
      GresStatus.from_str node.gres_used = .ok used →
      used.count ≤ total.count →
      node.alloc_memory ≤ node.real_memory →
      ∃ t, TableNode.from_node node gpus = .ok t ∧
        t.gres_status = String.mk
          (List.replicate (regularUsedCount used.count (preemptedCountOf node.hostname gpus)) 'u'
            ++ List.replicate (preemptedCountOf node.hostname gpus) 'p'
            ++ List.replicate (total.count - used.count) 'i')) ∧
    (∃ t, TableNode.from_node
        { hostname := "n1", state := ["MIXED"], partitions := ["gpu"], cpus := 64,
          alloc_idle_cpus := 32, real_memory := 128000, alloc_memory := 32000,
          gres := "gpu:a100:8", gres_used := "gpu:a100:3" } [⟨"n1", 2⟩] = .ok t ∧
      t.gres_status = "uppiiiii" ∧ t.gres_status.length = 8) ∧
    regularUsedCount 3 (preemptedCountOf "n1" [⟨"n1", 2⟩]) = 1 ∧
    preemptedCountOf "n1" [⟨"n1", 2⟩] = 2 := by
  refine ⟨?_,
    ⟨{ hostname := "n1", cpus_available := "32/64", memory_available := "96/128G",
       gres := "gpu:a100", gres_status := "uppiiiii", state := "MIXED" },
      by decide, by decide, by decide⟩, by decide, by decide⟩
  intro node gpus total used h1 h2 hle hmem
  have hrun : TableNode.from_node node gpus = .ok
      { hostname := node.hostname
        cpus_available := format_ratio node.alloc_idle_cpus node.cpus
        memory_available :=
          format_ratio ((node.real_memory - node.alloc_memory) / 1000)
            (node.real_memory / 1000) ++ "G"
        gres := total.model
        gres_status :=
          (repeat_colored_char 'u'
            (regularUsedCount used.count (preemptedCountOf node.hostname gpus)) "red").text ++
          (repeat_colored_char 'p' (preemptedCountOf node.hostname gpus) "yellow").text ++
          (repeat_colored_char 'i' (total.count - used.count) "green").text
        state := String.intercalate "," (node.state.map colorState) } := by
    simp only [TableNode.from_node, h1, h2, checkedSub, if_pos hle, if_pos hmem]
  exact ⟨_, hrun, rfl⟩

/-- C8 witness: instantiation of the general segment statement on the
concrete 8-total/3-used node. -/
theorem c8_witness :
    ∃ t, TableNode.from_node
        { hostname := "n1", state := ["MIXED"], partitions := ["gpu"], cpus := 64,
          alloc_idle_cpus := 32, real_memory := 128000, alloc_memory := 32000,
          gres := "gpu:a100:8", gres_used := "gpu:a100:3" } [⟨"n1", 2⟩] = .ok t ∧
      t.gres_status = String.mk
        (List.replicate (regularUsedCount 3 (preemptedCountOf "n1" [⟨"n1", 2⟩])) 'u'
          ++ List.replicate (preemptedCountOf "n1" [⟨"n1", 2⟩]) 'p'
          ++ List.replicate (8 - 3) 'i') :=
  c8_glyph_string_segments.1
    { hostname := "n1", state := ["MIXED"], partitions := ["gpu"], cpus := 64,
      alloc_idle_cpus := 32, real_memory := 128000, alloc_memory := 32000,
      gres := "gpu:a100:8", gres_used := "gpu:a100:3" } [⟨"n1", 2⟩]
    ⟨"gpu:a100", 8⟩ ⟨"gpu:a100", 3⟩ (by decide) (by decide) (by decide) (by decide)

theorem extractJobAllocs_eq_filterMap (node : String) :
    ∀ ds : List String,
      extractJobAllocs node ds = ds.filterMap (fun g => parse_gpu_allocation g node) := by
  intro ds
  induction ds with
  | nil => rfl
  | cons g gs ih =>
    simp only [extractJobAllocs, List.filterMap_cons]
    cases parse_gpu_allocation g node with
    | none => exact ih
    | some a => exact congrArg (a :: ·) ih

/-- C6: the preemption correlator output is exactly: filter jobs to the
`"preempted"` partition, then run the extractor over every detail entry
of each surviving job, in job order then detail order, with no sorting
or deduplication; jobs with an empty detail sequence contribute
nothing.  The second conjunct checks the repository's own seven-job test
vector, noise jobs and empty-detail jobs included. -/
theorem c6_correlator_is_filter_extract :
    (∀ jobs : List Job, process_preempted_jobs jobs = correlatorSpec jobs) ∧
    process_preempted_jobs
      [⟨"cpu", "cpu-a-1", []⟩,
       ⟨"gpu", "gpu-a-1", ["gpu:a100:1(IDX:3)"]⟩,
       ⟨"interactive", "gpu-sm01-14", ["gpu:a40:1(IDX:0)"]⟩,
       ⟨"preempted", "gpu-sm01-13", ["gpu:a40:1(IDX:0)"]⟩,
       ⟨"preempted", "gpu-f-6", ["gpu:h100:4(IDX:0-3)"]⟩,
       ⟨"preempted", "gpu-h-2", ["gpu:h200:7(IDX:0,2-7)"]⟩,
       ⟨"preempted", "another-node", []⟩] =
      [⟨"gpu-sm01-13", 1⟩, ⟨"gpu-f-6", 4⟩, ⟨"gpu-h-2", 7⟩] := by
  refine ⟨?_, by decide⟩
  intro jobs
  induction jobs with
  | nil => rfl
  | cons j js ih =>
    simp only [process_preempted_jobs, correlatorSpec, List.filter_cons] at *
    by_cases h : j.partition = "preempted"
    · rw [if_pos (by simpa using h), if_pos h, List.flatMap_cons,
        extractJobAllocs_eq_filterMap, ih]
    · rw [if_neg (by simpa using h), if_neg h, ih, List.nil_append]

/-- C10 witness: instantiation on a concrete IDX-path input. -/
theorem c10_witness :
    parse_gpu_allocation "gpu:a40:1(IDX:0)" "gpu-sm01-13" = some ⟨"gpu-sm01-13", 1⟩ ∧
      1 ≤ (⟨"gpu-sm01-13", 1⟩ : GpuAllocation).gpus ∧
      (⟨"gpu-sm01-13", 1⟩ : GpuAllocation).node = "gpu-sm01-13" :=
  ⟨by decide, c10_some_implies_positive_and_node "gpu:a40:1(IDX:0)" "gpu-sm01-13" _ (by decide)⟩
